import Mathlib

/-!
Verification of the MeshCleaner repository (clean_mesh.py).

The Python code is shallowly embedded:
- a trimesh mesh is a record of an identity together with its `area` and
  `volume` scalar properties (floats are modelled as rationals);
- Python exceptions are explicit `Except` values; the external mesh library
  (trimesh load / split / export) and the filesystem are oracles supplied as
  function-valued parameters, so theorems quantify over every behaviour of
  the library;
- `glob.glob` on a POSIX filesystem is modelled for metacharacter-free
  patterns of the shape `*.<fmt>`: case-sensitive suffix match that skips
  names starting with a dot.
-/

namespace MeshCleaner

/-- Python exception classes that the script can raise or observe. -/
inductive Err where
  | valueError (msg : String)
  | assertionError
  | exc (msg : String)
deriving DecidableEq, Repr

/-- A mesh object: an identity (so that distinct objects with equal geometry
can be told apart) plus the `area` and `volume` scalar attributes used by
`select_main_component`. -/
structure Mesh where
  meshId : Nat
  area : ℚ
  volume : ℚ
deriving DecidableEq, Repr

instance : Inhabited Mesh := ⟨⟨0, 0, 0⟩⟩

/-- The literal `1e-12` from `clean_mesh.py` line 43. -/
def epsilon : ℚ := 1 / 1000000000000

/-- Line 43 of `clean_mesh.py`:
`vol = float(comp.volume) if getattr(comp, "volume", 0.0) and comp.volume > 1e-12 else 1e-12`.
The `getattr` returns `comp.volume` (every mesh has the attribute) and Python
truthiness of a float is being nonzero, hence the first conjunct. -/
def clampVol (v : ℚ) : ℚ :=
  if v ≠ 0 ∧ epsilon < v then v else epsilon

/-- Line 44: `ratio = float(comp.area) / vol`. -/
def ratioOf (c : Mesh) : ℚ := c.area / clampVol c.volume

/-- Comparison of a candidate against the running minimum, where `none`
stands for the initial `best_ratio = float("inf")`. -/
def ltBest (q : ℚ) : Option ℚ → Bool
  | none => true
  | some r => decide (q < r)

/-- The scan of lines 41-47: `best_comp`/`best_ratio` start as
`None`/`float("inf")` and each component with a strictly smaller ratio
replaces the running best. -/
def ratioLoop : List Mesh → Option Mesh → Option ℚ → Option Mesh
  | [], best, _ => best
  | c :: rest, best, bestR =>
    if ltBest (ratioOf c) bestR then ratioLoop rest (some c) (some (ratioOf c))
    else ratioLoop rest best bestR

/-- `select_main_component` from `clean_mesh.py` lines 18-52: empty input
raises `ValueError`; `"first"` returns the head; `"ratio"` runs the scan
(the `assert best_comp is not None` becomes the `AssertionError` branch);
any other method falls back to the head. -/
def select_main_component (components : List Mesh) (method : String) : Except Err Mesh :=
  match components with
  | [] => Except.error (Err.valueError "No components provided")
  | c :: rest =>
    if method = "first" then Except.ok c
    else if method = "ratio" then
      match ratioLoop (c :: rest) none none with
      | some best => Except.ok best
      | none => Except.error Err.assertionError
    else Except.ok c

/-- Helper for reasoning about the ratio scan: the running best after the
first component has been absorbed.  `scanMin b l` is the result of continuing
the scan over `l` with current best `b` (and current best ratio
`ratioOf b`). -/
def scanMin (b : Mesh) : List Mesh → Mesh
  | [] => b
  | c :: rest => if ratioOf c < ratioOf b then scanMin c rest else scanMin b rest

/-! ### Python string primitives, modelled over the character list -/

/-- Python `str.lower()`. -/
def pyLower (s : String) : String := String.mk (s.data.map Char.toLower)

/-- Python `str.strip()`: remove whitespace from both ends. -/
def pyStrip (s : String) : String :=
  String.mk (((s.data.dropWhile Char.isWhitespace).reverse.dropWhile Char.isWhitespace).reverse)

/-- Python `str.lstrip(".")`: remove every leading dot. -/
def pyLstripDots (s : String) : String :=
  String.mk (s.data.dropWhile (fun ch => ch == '.'))

/-! ### The file processor (`process_file`, lines 55-88) -/

/-- Behaviour of the external mesh library and filesystem during one run:
each operation either returns a value or raises.  Theorems quantify over
every such behaviour. -/
structure Env where
  load : String → Except Err Mesh
  split : Mesh → Except Err (List Mesh)
  exportMesh : Mesh → String → Except Err Unit
  mkdirParents : String → Except Err Unit

/-- Observable outcome of one `process_file` call: the returned boolean, the
mesh written to the output path (if any), and how many times
`select_main_component` was invoked. -/
structure FileOutcome where
  success : Bool
  exported : Option Mesh
  selectorCalls : Nat
deriving DecidableEq, Repr

/-- Lines 83-85: `output_path.parent.mkdir(...)`, `processed_mesh.export(...)`,
`return True`; a raise from either lands in the `except` of lines 86-88. -/
def exportStep (env : Env) (pm : Mesh) (output_file : String) (n : Nat) : FileOutcome :=
  match env.mkdirParents output_file with
  | Except.error _ => FileOutcome.mk false none n
  | Except.ok _ =>
    match env.exportMesh pm output_file with
    | Except.error _ => FileOutcome.mk false none n
    | Except.ok _ => FileOutcome.mk true (some pm) n

/-- `process_file` (lines 55-88): load, split, select when more than one
component, export; the surrounding `try`/`except Exception` maps every raise
to a `False` return. -/
def process_file (env : Env) (input_file output_file : String) (method : String) : FileOutcome :=
  match env.load input_file with
  | Except.error _ => FileOutcome.mk false none 0
  | Except.ok mesh =>
    match env.split mesh with
    | Except.error _ => FileOutcome.mk false none 0
    | Except.ok components =>
      if components.length > 1 then
        match select_main_component components method with
        | Except.error _ => FileOutcome.mk false none 1
        | Except.ok pm => exportStep env pm output_file 1
      else exportStep env mesh output_file 0

/-! ### The batch driver (`process_directory`, lines 91-148) -/

/-- `out_dir / filename` (line 137). -/
def joinPath (dir name : String) : String := dir ++ "/" ++ name

/-- Line 122: `f.strip().lstrip(".").lower()`. -/
def normalizeFmt (f : String) : String := pyLower (pyLstripDots (pyStrip f))

/-- Line 122: `[f.strip().lstrip(".").lower() for f in formats if f.strip()]`
(a stripped-empty format is skipped; Python truthiness of a string is
nonemptiness). -/
def fmt_list (formats : List String) : List String :=
  (formats.filter (fun f => !(pyStrip f == ""))).map normalizeFmt

/-- POSIX `glob.glob` with the metacharacter-free pattern `*.<fmt>`
(line 126): a file name matches when it ends with `"." ++ fmt`
(case-sensitive) and is not a hidden name starting with a dot. -/
def globMatch (fmt name : String) : Bool :=
  (("." ++ fmt).data.isSuffixOf name.data) && !(name.data.head? == some '.')

/-- Lines 123-126: for each normalized format, append every matching file of
the input directory (`dirFiles` lists the directory entries in enumeration
order). -/
def discoverFiles (dirFiles : List String) (formats : List String) : List String :=
  ((fmt_list formats).map (fun fmt => dirFiles.filter (fun n => globMatch fmt n))).flatten

/-- Lines 134-140: the loop accumulating one success per `True` from
`process_file file (out_dir / file.name)`. -/
def successCount (env : Env) (out_dir method : String) : List String → Nat
  | [] => 0
  | f :: rest =>
    (if (process_file env f (joinPath out_dir f) method).success then 1 else 0) +
      successCount env out_dir method rest

/-- The state `process_directory` observes: whether the input directory
exists, its entries, and the mesh-library behaviour used per file. -/
structure DirEnv where
  inputDirExists : Bool
  dirFiles : List String
  fileEnv : Env

/-- `process_directory` (lines 91-148): missing input directory returns 0,
empty discovery returns 0, otherwise the per-file loop count is returned. -/
def process_directory (denv : DirEnv) (out_dir : String) (formats : List String)
    (method : String) : Nat :=
  if !denv.inputDirExists then 0
  else
    let files := discoverFiles denv.dirFiles formats
    if files.isEmpty then 0
    else successCount denv.fileEnv out_dir method files

/-! ### Concrete library behaviours used by the witnesses -/

/-- A library behaviour where every operation succeeds and every split
returns the mesh itself as the only component. -/
def okEnv : Env :=
  ⟨fun _ => Except.ok ⟨0, 10, 5⟩, fun mh => Except.ok [mh],
    fun _ _ => Except.ok (), fun _ => Except.ok ()⟩

/-- A library behaviour where loading succeeds and splitting returns no
components at all. -/
def zeroSplitEnv : Env :=
  ⟨fun _ => Except.ok ⟨0, 10, 5⟩, fun _ => Except.ok [],
    fun _ _ => Except.ok (), fun _ => Except.ok ()⟩

/-- A directory with a single file `a.stl` and an all-succeeding library. -/
def dupDirEnv : DirEnv := ⟨true, ["a.stl"], okEnv⟩

/-! ### Definitions taken from the spec's words (for refinement claims) -/

/-- Modelled from the spec: the ratio `area / max(volume, epsilon)` that the
spec says the `"ratio"` policy minimises. -/
def specRatioOf (c : Mesh) : ℚ := c.area / max c.volume epsilon

/-- Modelled from the spec: `m` is the earliest component of `comps`
attaining the minimal spec ratio — it occurs in the list, no component has a
strictly smaller ratio, and every component before it has a strictly larger
ratio. -/
def IsFirstMin (comps : List Mesh) (m : Mesh) : Prop :=
  ∃ l₁ l₂, comps = l₁ ++ m :: l₂ ∧
    (∀ c ∈ comps, specRatioOf m ≤ specRatioOf c) ∧
    (∀ c ∈ l₁, specRatioOf m < specRatioOf c)

/-! ### Helper lemmas -/

theorem epsilon_pos : 0 < epsilon := by norm_num [epsilon]

/-- The guard of line 43 computes exactly `max volume epsilon`. -/
theorem clampVol_eq_max (v : ℚ) : clampVol v = max v epsilon := by
  unfold clampVol
  rcases lt_or_le epsilon v with h | h
  · rw [if_pos ⟨(lt_trans epsilon_pos h).ne', h⟩, max_eq_left h.le]
  · rw [if_neg, max_eq_right h]
    rintro ⟨-, h2⟩
    exact absurd h (not_le.mpr h2)

/-- The code's ratio equals the spec's `area / max(volume, epsilon)`. -/
theorem ratioOf_eq_spec (c : Mesh) : ratioOf c = specRatioOf c := by
  rw [ratioOf, specRatioOf, clampVol_eq_max]

/-- Running the scan with an absorbed first best computes `scanMin`. -/
theorem ratioLoop_run (l : List Mesh) : ∀ b : Mesh,
    ratioLoop l (some b) (some (ratioOf b)) = some (scanMin b l) := by
  induction l with
  | nil => intro b; rfl
  | cons c rest ih =>
    intro b
    by_cases h : ratioOf c < ratioOf b
    · simp [ratioLoop, ltBest, scanMin, h, ih]
    · simp [ratioLoop, ltBest, scanMin, h, ih]

/-- On a non-empty list the `"ratio"` branch returns the scan result. -/
theorem select_ratio_eq (c : Mesh) (rest : List Mesh) :
    select_main_component (c :: rest) "ratio" = Except.ok (scanMin c rest) := by
  simp [select_main_component, ratioLoop, ltBest, ratioLoop_run]

/-- `scanMin b l` is the earliest element of `b :: l` attaining the minimal
ratio: it occurs at a position such that every element has a ratio at least
as large, and every element strictly before it has a strictly larger ratio
(the scan only replaces the best on a strict decrease). -/
theorem scanMin_first_min (l : List Mesh) : ∀ b : Mesh,
    ∃ l₁ l₂, b :: l = l₁ ++ scanMin b l :: l₂ ∧
      (∀ c ∈ b :: l, ratioOf (scanMin b l) ≤ ratioOf c) ∧
      (∀ c ∈ l₁, ratioOf (scanMin b l) < ratioOf c) := by
  induction l with
  | nil =>
    intro b
    exact ⟨[], [], rfl, by simp [scanMin], by simp⟩
  | cons c rest ih =>
    intro b
    by_cases h : ratioOf c < ratioOf b
    · obtain ⟨l₁, l₂, hdec, hmin, hstr⟩ := ih c
      have hsc : scanMin b (c :: rest) = scanMin c rest := by simp [scanMin, h]
      rw [hsc]
      have hminc : ratioOf (scanMin c rest) ≤ ratioOf c := hmin c (List.mem_cons_self _ _)
      refine ⟨b :: l₁, l₂, ?_, ?_, ?_⟩
      · rw [List.cons_append, ← hdec]
      · intro x hx
        rcases List.mem_cons.mp hx with rfl | hx'
        · exact le_of_lt (lt_of_le_of_lt hminc h)
        · exact hmin x hx'
      · intro x hx
        rcases List.mem_cons.mp hx with rfl | hx'
        · exact lt_of_le_of_lt hminc h
        · exact hstr x hx'
    · have hle : ratioOf b ≤ ratioOf c := not_lt.mp h
      obtain ⟨l₁, l₂, hdec, hmin, hstr⟩ := ih b
      have hsc : scanMin b (c :: rest) = scanMin b rest := by simp [scanMin, h]
      rw [hsc]
      cases l₁ with
      | nil =>
        rw [List.nil_append] at hdec
        injection hdec with hb hl₂
        refine ⟨[], c :: rest, ?_, ?_, by simp⟩
        · rw [List.nil_append, ← hb]
        · intro x hx
          rcases List.mem_cons.mp hx with rfl | hx'
          · rw [← hb]
          · rcases List.mem_cons.mp hx' with rfl | hx''
            · rw [← hb]; exact hle
            · exact hmin x (List.mem_cons_of_mem _ hx'')
      | cons b' l₁' =>
        rw [List.cons_append] at hdec
        injection hdec with hb' hrest
        have hstrb : ratioOf (scanMin b rest) < ratioOf b := by
          have := hstr b' (List.mem_cons_self _ _)
          rwa [← hb'] at this
        refine ⟨b :: c :: l₁', l₂, ?_, ?_, ?_⟩
        · rw [List.cons_append, List.cons_append, ← hrest]
        · intro x hx
          rcases List.mem_cons.mp hx with rfl | hx'
          · exact hmin x (List.mem_cons_self _ _)
          · rcases List.mem_cons.mp hx' with rfl | hx''
            · exact le_of_lt (lt_of_lt_of_le hstrb hle)
            · exact hmin x (List.mem_cons_of_mem _ hx'')
        · intro x hx
          rcases List.mem_cons.mp hx with rfl | hx'
          · exact hstrb
          · rcases List.mem_cons.mp hx' with rfl | hx''
            · exact lt_of_lt_of_le hstrb hle
            · exact hstr x (hb' ▸ List.mem_cons_of_mem _ hx'')

/-- The loop count distributes over list append. -/
theorem successCount_append (env : Env) (out_dir method : String) (l1 l2 : List String) :
    successCount env out_dir method (l1 ++ l2) =
      successCount env out_dir method l1 + successCount env out_dir method l2 := by
  induction l1 with
  | nil => simp [successCount]
  | cons f rest ih => simp [successCount, ih, Nat.add_assoc]

/-! ### Claim theorems -/

/-- C1: for every non-empty component list, `select_main_component` with
method `"ratio"` returns the component whose ratio `area / max(volume,
epsilon)` is minimal, and when several components attain the minimal ratio
it returns the earliest such component in list order (the scan compares
with a strict `<` against the running minimum, so everything before the
returned component has a strictly larger ratio). -/
theorem select_ratio_selects_first_min (comps : List Mesh) (h : comps ≠ []) :
    ∃ m, select_main_component comps "ratio" = Except.ok m ∧ IsFirstMin comps m := by
  obtain ⟨c, rest, rfl⟩ := List.exists_cons_of_ne_nil h
  refine ⟨scanMin c rest, select_ratio_eq c rest, ?_⟩
  unfold IsFirstMin
  simp only [← ratioOf_eq_spec]
  exact scanMin_first_min rest c

/-- Witness for C1 on the two-component list from the repository's tests:
ratios are `10/5 = 2` and `1/(1/10) = 10`, so the first component wins. -/
theorem select_ratio_selects_first_min_witness :
    ([⟨1, 10, 5⟩, ⟨2, 1, 1/10⟩] : List Mesh) ≠ [] ∧
    ∃ m, select_main_component [⟨1, 10, 5⟩, ⟨2, 1, 1/10⟩] "ratio" = Except.ok m ∧
      IsFirstMin [⟨1, 10, 5⟩, ⟨2, 1, 1/10⟩] m :=
  ⟨by simp, select_ratio_selects_first_min _ (by simp)⟩

/-- C5: for every component whose volume is at most the epsilon constant
`1e-12` (in particular a zero volume), the guard uses epsilon as the
divisor: the divisor is nonzero, so the division-by-zero branch is
unreachable and the ratio is `area / epsilon`. -/
theorem ratio_small_volume_uses_epsilon (c : Mesh) (h : c.volume ≤ epsilon) :
    clampVol c.volume = epsilon ∧ clampVol c.volume ≠ 0 ∧
      ratioOf c = c.area / epsilon := by
  have he : clampVol c.volume = epsilon := by
    rw [clampVol_eq_max, max_eq_right h]
  exact ⟨he, he ▸ epsilon_pos.ne', by rw [ratioOf, he]⟩

/-- Witness for C5 at a component of area 10 and volume 0. -/
theorem ratio_small_volume_uses_epsilon_witness :
    (Mesh.mk 0 10 0).volume ≤ epsilon ∧
    (clampVol (Mesh.mk 0 10 0).volume = epsilon ∧ clampVol (Mesh.mk 0 10 0).volume ≠ 0 ∧
      ratioOf (Mesh.mk 0 10 0) = (Mesh.mk 0 10 0).area / epsilon) :=
  ⟨by norm_num [epsilon], ratio_small_volume_uses_epsilon _ (by norm_num [epsilon])⟩

/-- C6: for every method string, calling `select_main_component` on an
empty component list raises the `ValueError` of line 34 — the emptiness
check precedes the method dispatch. -/
theorem select_empty_raises_valueError (method : String) :
    select_main_component [] method =
      Except.error (Err.valueError "No components provided") := rfl

/-- C7: for every non-empty component list and every method other than
`"first"` and `"ratio"`, the selector behaves exactly like `"first"` (the
permissive fallback of lines 50-52) and never fails. -/
theorem select_unknown_method_eq_first (comps : List Mesh) (method : String)
    (hne : comps ≠ []) (h1 : method ≠ "first") (h2 : method ≠ "ratio") :
    select_main_component comps method = select_main_component comps "first" ∧
    ∃ m, select_main_component comps method = Except.ok m := by
  obtain ⟨c, rest, rfl⟩ := List.exists_cons_of_ne_nil hne
  refine ⟨by simp [select_main_component, h1, h2], ⟨c, by simp [select_main_component, h1, h2]⟩⟩

/-- Witness for C7 with the unrecognized method string `"weird"`. -/
theorem select_unknown_method_eq_first_witness :
    ([⟨1, 2, 3⟩] : List Mesh) ≠ [] ∧ ("weird" : String) ≠ "first" ∧ ("weird" : String) ≠ "ratio" ∧
    (select_main_component [⟨1, 2, 3⟩] "weird" = select_main_component [⟨1, 2, 3⟩] "first" ∧
      ∃ m, select_main_component [⟨1, 2, 3⟩] "weird" = Except.ok m) :=
  ⟨by simp, by decide, by decide,
    select_unknown_method_eq_first _ _ (by simp) (by decide) (by decide)⟩

/-- C8: for every non-empty component list and every method string, the
selector succeeds and the returned mesh is an element of the input list. -/
theorem select_returns_member (comps : List Mesh) (method : String) (hne : comps ≠ []) :
    ∃ m, select_main_component comps method = Except.ok m ∧ m ∈ comps := by
  obtain ⟨c, rest, rfl⟩ := List.exists_cons_of_ne_nil hne
  by_cases h1 : method = "first"
  · exact ⟨c, by simp [select_main_component, h1], List.mem_cons_self _ _⟩
  · by_cases h2 : method = "ratio"
    · subst h2
      refine ⟨scanMin c rest, select_ratio_eq c rest, ?_⟩
      obtain ⟨l₁, l₂, hdec, -, -⟩ := scanMin_first_min rest c
      rw [hdec]
      exact List.mem_append_right _ (List.mem_cons_self _ _)
    · exact ⟨c, by simp [select_main_component, h1, h2], List.mem_cons_self _ _⟩

/-- Witness for C8 with method `"ratio"` on a two-component list. -/
theorem select_returns_member_witness :
    ([⟨1, 10, 5⟩, ⟨2, 1, 1⟩] : List Mesh) ≠ [] ∧
    ∃ m, select_main_component [⟨1, 10, 5⟩, ⟨2, 1, 1⟩] "ratio" = Except.ok m ∧
      m ∈ ([⟨1, 10, 5⟩, ⟨2, 1, 1⟩] : List Mesh) :=
  ⟨by simp, select_returns_member _ "ratio" (by simp)⟩

/-- C2: `process_file` absorbs every failure: it returns `True` exactly when
loading, splitting, the selection step, directory creation and exporting all
succeed, so any raise from any step yields a `False` return (the result type
carries no exception — nothing escapes); and in the enumeration loop a file
contributes its own boolean independently, so the files after it are still
processed and counted the same way. -/
theorem process_file_catches_exceptions (env : Env) (i o method out_dir : String)
    (rest : List String) :
    ((process_file env i o method).success = true ↔
      ∃ mesh comps pm, env.load i = Except.ok mesh ∧ env.split mesh = Except.ok comps ∧
        (if comps.length > 1 then select_main_component comps method = Except.ok pm
         else pm = mesh) ∧
        env.mkdirParents o = Except.ok () ∧ env.exportMesh pm o = Except.ok ()) ∧
    successCount env out_dir method (i :: rest) =
      (if (process_file env i (joinPath out_dir i) method).success then 1 else 0) +
        successCount env out_dir method rest := by
  refine ⟨⟨?_, ?_⟩, rfl⟩
  · intro hs
    cases hl : env.load i with
    | error e => simp [process_file, hl] at hs
    | ok mesh =>
      cases hsp : env.split mesh with
      | error e => simp [process_file, hl, hsp] at hs
      | ok comps =>
        by_cases hlen : comps.length > 1
        · cases hsel : select_main_component comps method with
          | error e => simp [process_file, hl, hsp, hlen, hsel] at hs
          | ok pm =>
            cases hmk : env.mkdirParents o with
            | error e => simp [process_file, exportStep, hl, hsp, hlen, hsel, hmk] at hs
            | ok u =>
              cases hex : env.exportMesh pm o with
              | error e =>
                simp [process_file, exportStep, hl, hsp, hlen, hsel, hmk, hex] at hs
              | ok u2 =>
                cases u; cases u2
                exact ⟨mesh, comps, pm, by simp_all, by simp_all, by simp_all,
                  by simp_all, by simp_all⟩
        · cases hmk : env.mkdirParents o with
          | error e => simp [process_file, exportStep, hl, hsp, hlen, hmk] at hs
          | ok u =>
            cases hex : env.exportMesh mesh o with
            | error e => simp [process_file, exportStep, hl, hsp, hlen, hmk, hex] at hs
            | ok u2 =>
              cases u; cases u2
              exact ⟨mesh, comps, mesh, by simp_all, by simp_all, by simp_all,
                by simp_all, by simp_all⟩
  · rintro ⟨mesh, comps, pm, hl, hsp, hsel, hmk, hex⟩
    by_cases hlen : comps.length > 1
    · rw [if_pos hlen] at hsel
      simp [process_file, exportStep, hl, hsp, hlen, hsel, hmk, hex]
    · rw [if_neg hlen] at hsel
      subst hsel
      simp [process_file, exportStep, hl, hsp, hlen, hmk, hex]

/-- C4: when the split yields exactly one component, `process_file` takes
the single-component branch: the selector is never invoked
(`selectorCalls = 0`) and the loaded mesh itself is exported unchanged — the
single-part model passes through unmodified. -/
theorem process_file_single_component (env : Env) (i o method : String) (mesh c : Mesh)
    (hl : env.load i = Except.ok mesh) (hsp : env.split mesh = Except.ok [c])
    (hmk : env.mkdirParents o = Except.ok ()) (hex : env.exportMesh mesh o = Except.ok ()) :
    process_file env i o method = FileOutcome.mk true (some mesh) 0 := by
  simp [process_file, exportStep, hl, hsp, hmk, hex]

/-- C9: when the split yields zero components, `len(components) > 1` is
false, so `process_file` takes the same single-component branch: the
selector is never called (so its empty-list `ValueError` is unreachable on
this path), the original loaded mesh is exported, and the call returns
`True`. -/
theorem process_file_zero_components (env : Env) (i o method : String) (mesh : Mesh)
    (hl : env.load i = Except.ok mesh) (hsp : env.split mesh = Except.ok [])
    (hmk : env.mkdirParents o = Except.ok ()) (hex : env.exportMesh mesh o = Except.ok ()) :
    process_file env i o method = FileOutcome.mk true (some mesh) 0 := by
  simp [process_file, exportStep, hl, hsp, hmk, hex]

/-- Witness for C4: a successful run over a single-component mesh. -/
theorem process_file_single_component_witness :
    okEnv.load "in.stl" = Except.ok ⟨0, 10, 5⟩ ∧
    okEnv.split ⟨0, 10, 5⟩ = Except.ok [⟨0, 10, 5⟩] ∧
    okEnv.mkdirParents "out/in.stl" = Except.ok () ∧
    okEnv.exportMesh ⟨0, 10, 5⟩ "out/in.stl" = Except.ok () ∧
    process_file okEnv "in.stl" "out/in.stl" "first" =
      FileOutcome.mk true (some ⟨0, 10, 5⟩) 0 :=
  ⟨rfl, rfl, rfl, rfl,
    process_file_single_component okEnv "in.stl" "out/in.stl" "first" _ _ rfl rfl rfl rfl⟩

/-- Witness for C9: a successful run where the split yields no components. -/
theorem process_file_zero_components_witness :
    zeroSplitEnv.load "in.stl" = Except.ok ⟨0, 10, 5⟩ ∧
    zeroSplitEnv.split ⟨0, 10, 5⟩ = Except.ok [] ∧
    zeroSplitEnv.mkdirParents "out/in.stl" = Except.ok () ∧
    zeroSplitEnv.exportMesh ⟨0, 10, 5⟩ "out/in.stl" = Except.ok () ∧
    process_file zeroSplitEnv "in.stl" "out/in.stl" "ratio" =
      FileOutcome.mk true (some ⟨0, 10, 5⟩) 0 :=
  ⟨rfl, rfl, rfl, rfl,
    process_file_zero_components zeroSplitEnv "in.stl" "out/in.stl" "ratio" _ rfl rfl rfl rfl⟩

/-- C3 counterexample: the file name `Model.STL` matches the requested
format `stl` case-insensitively (its lowercased name matches the pattern),
yet `glob` matching of the file name is case-sensitive, so the file is not
discovered. -/
theorem discover_not_case_insensitive :
    globMatch (normalizeFmt "stl") (pyLower "Model.STL") = true ∧
    "Model.STL" ∉ discoverFiles ["Model.STL"] ["stl"] :=
  ⟨by decide, by decide⟩

/-- C3 amended: only the requested format string is normalized
case-insensitively (whitespace-stripped, leading dots stripped, lowercased);
the file name itself is matched case-sensitively against `*.<format>`
(POSIX glob), skipping dot-hidden names: a file is discovered exactly when
it lies in the input directory and its name ends with `"." ++` the
normalized format of some non-blank requested format. -/
theorem discoverFiles_mem_iff (dirFiles formats : List String) (name : String) :
    name ∈ discoverFiles dirFiles formats ↔
      name ∈ dirFiles ∧
        ∃ f ∈ formats, pyStrip f ≠ "" ∧ globMatch (normalizeFmt f) name = true := by
  simp only [discoverFiles, fmt_list, List.mem_flatten, List.mem_map, List.mem_filter,
    List.map_map, Function.comp]
  constructor
  · rintro ⟨l, ⟨f, ⟨⟨hf, hstrip⟩, rfl⟩⟩, hmem⟩
    rcases List.mem_filter.mp hmem with ⟨hdir, hmatch⟩
    refine ⟨hdir, f, hf, ?_, hmatch⟩
    simpa using hstrip
  · rintro ⟨hdir, f, hf, hstrip, hmatch⟩
    refine ⟨dirFiles.filter (fun n => globMatch (normalizeFmt f) n), ⟨f, ⟨⟨hf, ?_⟩, rfl⟩⟩, ?_⟩
    · simpa using hstrip
    · exact List.mem_filter.mpr ⟨hdir, hmatch⟩

/-- C10: when two requested format entries normalize to the same extension,
every matching file is discovered once per entry, so the discovery list is
the match list twice over, and (when the directory exists and something
matches) the returned success count is twice the per-pass count — it can
therefore exceed the number of distinct files in the directory. -/
theorem duplicate_formats_double_count (denv : DirEnv) (out_dir method f1 f2 : String)
    (h1 : pyStrip f1 ≠ "") (h2 : pyStrip f2 ≠ "")
    (heq : normalizeFmt f2 = normalizeFmt f1)
    (hex : denv.inputDirExists = true)
    (hne : denv.dirFiles.filter (fun n => globMatch (normalizeFmt f1) n) ≠ []) :
    discoverFiles denv.dirFiles [f1, f2] =
      denv.dirFiles.filter (fun n => globMatch (normalizeFmt f1) n) ++
        denv.dirFiles.filter (fun n => globMatch (normalizeFmt f1) n) ∧
    process_directory denv out_dir [f1, f2] method =
      2 * successCount denv.fileEnv out_dir method
            (denv.dirFiles.filter (fun n => globMatch (normalizeFmt f1) n)) := by
  have hdisc : discoverFiles denv.dirFiles [f1, f2] =
      denv.dirFiles.filter (fun n => globMatch (normalizeFmt f1) n) ++
        denv.dirFiles.filter (fun n => globMatch (normalizeFmt f1) n) := by
    have hb1 : (pyStrip f1 == "") = false := beq_eq_false_iff_ne.mpr h1
    have hb2 : (pyStrip f2 == "") = false := beq_eq_false_iff_ne.mpr h2
    simp [discoverFiles, fmt_list, List.filter, hb1, hb2, heq]
  refine ⟨hdisc, ?_⟩
  unfold process_directory
  rw [hex, hdisc]
  have hne2 : (denv.dirFiles.filter (fun n => globMatch (normalizeFmt f1) n) ++
      denv.dirFiles.filter (fun n => globMatch (normalizeFmt f1) n)).isEmpty = false := by
    rcases List.exists_cons_of_ne_nil hne with ⟨a, t, hat⟩
    rw [hat]
    rfl
  simp only [Bool.not_true, Bool.false_eq_true, if_false, hne2]
  rw [successCount_append, Nat.two_mul]

/-- Witness for C10: requesting `["stl", "STL"]` over a directory holding
the one file `a.stl` discovers it twice and reports 2 successes — more than
the single distinct file present. -/
theorem duplicate_formats_double_count_witness :
    pyStrip "stl" ≠ "" ∧ pyStrip "STL" ≠ "" ∧
    normalizeFmt "STL" = normalizeFmt "stl" ∧
    dupDirEnv.inputDirExists = true ∧
    dupDirEnv.dirFiles.filter (fun n => globMatch (normalizeFmt "stl") n) ≠ [] ∧
    (discoverFiles dupDirEnv.dirFiles ["stl", "STL"] =
        dupDirEnv.dirFiles.filter (fun n => globMatch (normalizeFmt "stl") n) ++
          dupDirEnv.dirFiles.filter (fun n => globMatch (normalizeFmt "stl") n) ∧
      process_directory dupDirEnv "out" ["stl", "STL"] "first" =
        2 * successCount dupDirEnv.fileEnv "out" "first"
              (dupDirEnv.dirFiles.filter (fun n => globMatch (normalizeFmt "stl") n))) ∧
    process_directory dupDirEnv "out" ["stl", "STL"] "first" = 2 ∧
    dupDirEnv.dirFiles.length = 1 :=
  ⟨by decide, by decide, by decide, rfl, by decide,
    duplicate_formats_double_count dupDirEnv "out" "first" "stl" "STL"
      (by decide) (by decide) (by decide) rfl (by decide),
    rfl, rfl⟩

end MeshCleaner
